import Mathlib

/-!
Verification of the `retry` package (backoff policies and the retry loop).

Modelling conventions:
* Go's `time.Duration` (int64 nanoseconds) and `time.Time` instants are
  modelled as `Int` nanosecond counts; machine overflow is not modelled.
* Go's `float64` arithmetic (`math.Pow`, products) is idealised as exact
  rational arithmetic; the explicit Go conversion `time.Duration(x)` of a
  float to an integer duration truncates toward zero and is modelled by
  `ratTrunc`.
* A policy's `Next` method is a function `(start, now, attempt) ↦ (backoff,
  allow)`; Go `error` chains are modelled by the inductive `GoError`, and a
  Go `error` value (possibly `nil`) by `Option GoError`.
-/

namespace Retry

/-- Nanosecond count standing for Go's `time.Duration`. -/
abbrev Duration := Int

/-- Nanosecond instant standing for Go's `time.Time`. -/
abbrev Time := Int

/-- Go's float-to-integer conversion (`time.Duration(x)` for a `float64` x)
truncates toward zero. -/
def ratTrunc (q : ℚ) : ℤ := if q < 0 then -⌊-q⌋ else ⌊q⌋

/-- The shape of `Policy.Next`: `(start, now, attempt) → (backoff, allow)`. -/
abbrev PolicyFn := Time → Time → ℤ → Duration × Bool

/-- Default minimum backoff: 150ms (`DefaultMinBackoff` in policies.go). -/
def DefaultMinBackoff : Duration := 150 * 1000000

/-- Default maximum backoff: 15s (`DefaultMaxBackoff` in policies.go). -/
def DefaultMaxBackoff : Duration := 15 * 1000000000

/-- Default growth factor 1.5 (`DefaultGrowthFactor` in policies.go). -/
def DefaultGrowthFactor : ℚ := 3/2

/-- Default jitter factor 0.5 (`DefaultJitterFactor` in policies.go). -/
def DefaultJitterFactor : ℚ := 1/2

/-- `constantBackoff.Next`: always returns the stored backoff and `true`. -/
def constantBackoffNext (backoff : Duration) : PolicyFn := fun _ _ _ => (backoff, true)

/-- The fields of the `exponentialBackoff` struct in policies.go. -/
structure ExponentialBackoff where
  min : Duration
  max : Duration
  factor : ℚ
deriving DecidableEq

/-- The `ExponentialBackoff` constructor: replaces out-of-range parameters by
the defaults (`min <= 0`, `max <= 0`, `factor <= 1`). -/
def mkExponentialBackoff (min max : Duration) (factor : ℚ) : ExponentialBackoff :=
  { min := if min ≤ 0 then DefaultMinBackoff else min
    max := if max ≤ 0 then DefaultMaxBackoff else max
    factor := if factor ≤ 1 then DefaultGrowthFactor else factor }

/-- `exponentialBackoff.Next`:
`growthFactor := math.Pow(p.factor, float64(attempt-1))`;
`backoff := time.Duration(growthFactor * float64(p.min))`;
capped at `p.max`; always allows. -/
def exponentialBackoffNext (p : ExponentialBackoff) (start now : Time) (attempt : ℤ) :
    Duration × Bool :=
  let growthFactor : ℚ := p.factor ^ (attempt - 1)
  let backoff : Duration := ratTrunc (growthFactor * (p.min : ℚ))
  if p.max < backoff then (p.max, true) else (backoff, true)

/-- The factor normalisation performed by the `WithRandomJitter` constructor:
`if factor <= 0 || factor > 1 { factor = DefaultJitterFactor }`. -/
def withRandomJitterFactor (factor : ℚ) : ℚ :=
  if factor ≤ 0 ∨ 1 < factor then DefaultJitterFactor else factor

/-- `withRandomJitter.Next`, with the source of randomness made explicit: the
stream `rand : ℕ → ℚ` together with the index of the next unread draw models
`p.rand`, and the returned index is its state after the call.  The Go body
first asks the parent; on a veto it returns `(0, false)` without touching
`p.rand`; otherwise it draws `r := p.rand.Float64()` and returns
`time.Duration(float64(b) * (1 + (j * (2*r - 1))))` with allow `true`. -/
def withRandomJitterNext (parent : PolicyFn) (factor : ℚ) (rand : ℕ → ℚ) (randIdx : ℕ)
    (start now : Time) (attempt : ℤ) : (Duration × Bool) × ℕ :=
  let pr := parent start now attempt
  if pr.2 = false then ((0, false), randIdx)
  else
    let r := rand randIdx
    let j := factor
    ((ratTrunc ((pr.1 : ℚ) * (1 + j * (2 * r - 1))), true), randIdx + 1)

/-- `maxRetries.Next`, embedded with explicit recursion fuel.  The Go body is

  `if attempt > p.limit { return 0, false }`
  `return p.Next(start, now, attempt)`

where the second call is a self-call on the same receiver with the same
arguments (the body never reads `p.parent`, so the parent is carried as an
unused `Option PolicyFn`, `none` standing for a nil parent).  `fuel` bounds
the recursion depth; `none` means the call produced no result within that
depth, and a `none` result for every fuel is genuine divergence. -/
def maxRetriesNext (parent : Option PolicyFn) (limit : ℤ) (start now : Time) (attempt : ℤ) :
    ℕ → Option (Duration × Bool)
  | 0 => none
  | fuel + 1 =>
    if limit < attempt then some (0, false)
    else maxRetriesNext parent limit start now attempt fuel

/-- `maxElapsed.Next`: asks the parent for `(d, ok)`, then vetoes if
`start.Add(p.limit).Before(now.Add(d))`, i.e. `start + limit < now + d`;
otherwise returns the parent's pair unchanged. -/
def maxElapsedNext (parent : PolicyFn) (limit : Duration) (start now : Time) (attempt : ℤ) :
    Duration × Bool :=
  let r := parent start now attempt
  if start + limit < now + r.1 then (0, false) else r

/-- A Go error chain: `base` is a leaf error, `wrap` is an error wrapping
another (e.g. `fmt.Errorf("...: %w", err)`), and `permanent` is the
permanent-failure marker wrapper (`PermanentError{Err: e}` in the retry loop
file, `permanentError{err: e}` in its related revision), whose `Unwrap`
returns the wrapped error. -/
inductive GoError
  | base (msg : String)
  | wrap (msg : String) (err : GoError)
  | permanent (err : GoError)
deriving DecidableEq

/-- `errors.As(err, &pe)` followed by reading `pe.Err`: walks the unwrap
chain, and at the first permanent-failure marker returns the error the marker
wraps; `none` if the chain holds no marker. -/
def findPermanent : GoError → Option GoError
  | .base _ => none
  | .wrap _ e => findPermanent e
  | .permanent e => some e

/-- `isPermErr(err) = errors.Is(err, permErr)`: true iff the unwrap chain
contains a permanent-failure marker (every `permanentError` node reports
itself equal to the `permErr` sentinel via its `Is` method). -/
def isPermErr : GoError → Bool
  | .base _ => false
  | .wrap _ e => isPermErr e
  | .permanent _ => true

/-- `NewPermanentError`: returns `err` unchanged when it is nil or already a
permanent error, otherwise wraps it in the permanent-failure marker. -/
def NewPermanentError : Option GoError → Option GoError
  | none => none
  | some e => if isPermErr e then some e else some (.permanent e)

/-- Observable outcome of a (terminating) run of the retry loop `Do`:
the returned error (`none` = Go `nil`, i.e. success), the number of
invocations of the operation `fn`, the number of consultations of the
policy's `Next`, and the number of backoff waits performed. -/
structure DoResult where
  ret : Option GoError
  calls : ℕ
  policyCalls : ℕ
  waits : ℕ
deriving DecidableEq

/-- The body of the retry loop `Do`, from the `for retry := 1; ; retry++`
loop onward.  `ops retry` is the error returned by the `retry`-th call of
`fn`; `clock` is the stream of instants returned by successive `time.Now()`
calls and `k` the index of the next unread one; `start` was sampled before
the loop; `deadline` is `ctx.Deadline()` (`none` when absent) and `cancelAt`
the instant at which `ctx.Done()` fires (`none` = never).  One iteration:
call `fn`; return nil on success; return the permanent marker's inner error
if `errors.As` finds one; sample `now`; ask the policy; return the error on a
veto; if a deadline exists, sample `time.Now()` again and return the error
when `deadline < now2 + next`; then wait out `next`, returning the error if
cancellation fires first, else loop.  `fuel` bounds the number of
iterations; `none` means the loop did not return within `fuel` iterations. -/
def doRunAux (p : PolicyFn) (ops : ℕ → Option GoError) (clock : ℕ → Time)
    (start : Time) (deadline cancelAt : Option Time) :
    ℕ → ℕ → ℕ → Option DoResult
  | 0, _, _ => none
  | fuel + 1, retry, k =>
    match ops retry with
    | none => some ⟨none, 1, 0, 0⟩
    | some err =>
      match findPermanent err with
      | some inner => some ⟨some inner, 1, 0, 0⟩
      | none =>
        let now := clock k
        let nx := p start now retry
        if nx.2 = false then some ⟨some err, 1, 1, 0⟩
        else
          match deadline with
          | some dl =>
            let now2 := clock (k + 1)
            if dl < now2 + nx.1 then some ⟨some err, 1, 1, 0⟩
            else
              match cancelAt with
              | some c =>
                if c < now2 + nx.1 then some ⟨some err, 1, 1, 1⟩
                else
                  (doRunAux p ops clock start deadline cancelAt fuel (retry + 1) (k + 2)).map
                    fun r => ⟨r.ret, r.calls + 1, r.policyCalls + 1, r.waits + 1⟩
              | none =>
                (doRunAux p ops clock start deadline cancelAt fuel (retry + 1) (k + 2)).map
                  fun r => ⟨r.ret, r.calls + 1, r.policyCalls + 1, r.waits + 1⟩
          | none =>
            match cancelAt with
            | some c =>
              if c < now + nx.1 then some ⟨some err, 1, 1, 1⟩
              else
                (doRunAux p ops clock start deadline cancelAt fuel (retry + 1) (k + 1)).map
                  fun r => ⟨r.ret, r.calls + 1, r.policyCalls + 1, r.waits + 1⟩
            | none =>
              (doRunAux p ops clock start deadline cancelAt fuel (retry + 1) (k + 1)).map
                fun r => ⟨r.ret, r.calls + 1, r.policyCalls + 1, r.waits + 1⟩

/-- The retry loop `Do`: samples `start := time.Now()` (clock index 0), reads
the deadline, and enters the loop with `retry = 1` and clock index 1. -/
def doRun (fuel : ℕ) (p : PolicyFn) (ops : ℕ → Option GoError) (clock : ℕ → Time)
    (deadline cancelAt : Option Time) : Option DoResult :=
  doRunAux p ops clock (clock 0) deadline cancelAt fuel 1 1

/-! ### Claims about `maxRetries` (C1, C8) -/

/-- C1: the claim says `WithMaxRetries(p, n).Next(start, now, a)` with
`1 ≤ a ≤ n` delegates to the parent unchanged and terminates.  The code does
not: the body's second return is `p.Next(start, now, attempt)`, a self-call
with unchanged arguments, so for every attempt within the limit the call
recurses forever.  Here, with parent `ConstantBackoff(7)`, limit `3` and
attempt `1` (so the claim demands the result `(7, true)`), the embedded
method yields no result at every recursion depth. -/
theorem maxRetriesNext_diverges_on_allowed_attempt :
    ∀ fuel : ℕ, maxRetriesNext (some (constantBackoffNext 7)) 3 0 0 1 fuel = none := by
  intro fuel
  induction fuel with
  | zero => rfl
  | succ n ih => simpa [maxRetriesNext] using ih

/-- C8: whenever `attempt > limit`, `maxRetries.Next` returns `(0, false)` at
once, for an arbitrary parent — including `none`, standing for the nil parent
of `Never()` — so the parent is never consulted and a nil parent with limit 0
never causes a failure (the result does not depend on `parent` and one step
of fuel suffices). -/
theorem maxRetriesNext_veto_above_limit (parent : Option PolicyFn)
    (limit start now attempt : ℤ) (fuel : ℕ) (h : limit < attempt) :
    maxRetriesNext parent limit start now attempt (fuel + 1) = some (0, false) := by
  simp [maxRetriesNext, h]

/-- Witness for C8: `Never() = WithMaxRetries(nil, 0)` at attempt 1. -/
theorem maxRetriesNext_veto_above_limit_w :
    (0 : ℤ) < 1 ∧ maxRetriesNext none 0 0 0 1 1 = some (0, false) :=
  ⟨by decide, maxRetriesNext_veto_above_limit none 0 0 0 1 0 (by decide)⟩

/-! ### Claims about `maxElapsed` (C3) -/

/-- C3 counterexample: the claim's biconditional "allow=false iff
`now + d > start + L`" fails when the parent itself vetoes within the limit:
with a parent returning `(0, false)`, limit 10, start 0, now 0, the result's
allow is false yet `now + d = 0 ≤ 10 = start + L`. -/
theorem maxElapsedNext_veto_iff_cex :
    ¬ (((maxElapsedNext (fun _ _ _ => (0, false)) 10 0 0 1).2 = false) ↔
      ((0 : ℤ) + 0 > 0 + 10)) := by
  decide

/-- C3 amended: `maxElapsed.Next` returns allow=false iff
`start + limit < now + d` for the parent's backoff `d`, or the parent itself
returned allow=false; in particular a parent veto always propagates. -/
theorem maxElapsedNext_veto_iff (parent : PolicyFn) (limit start now attempt : ℤ) :
    ((maxElapsedNext parent limit start now attempt).2 = false ↔
      (start + limit < now + (parent start now attempt).1 ∨
        (parent start now attempt).2 = false)) ∧
    ((parent start now attempt).2 = false →
      (maxElapsedNext parent limit start now attempt).2 = false) := by
  simp only [maxElapsedNext]
  constructor
  · split_ifs with h
    · simp [h]
    · simp [h]
  · intro h2
    split_ifs with h
    · rfl
    · exact h2

/-- Witness for C3 amended: a vetoing parent `(5, false)` with
start 0, now 100, limit 3. -/
theorem maxElapsedNext_veto_iff_w :
    ((maxElapsedNext (fun _ _ _ => ((5 : ℤ), false)) 3 0 100 1).2 = false ↔
      ((0 : ℤ) + 3 < 100 + 5 ∨ false = false)) ∧
    (false = false → (maxElapsedNext (fun _ _ _ => ((5 : ℤ), false)) 3 0 100 1).2 = false) :=
  maxElapsedNext_veto_iff (fun _ _ _ => (5, false)) 3 0 100 1

/-! ### Claims about the permanent-failure marker (C6, C10) -/

/-- C6: marking is idempotent — `NewPermanentError` returns an already-marked
failure unchanged (the same value), applying it twice equals applying it
once — and a permanent failure wrapped by further layers is still detected by
`isPermErr`. -/
theorem permanent_marking_idempotent :
    (∀ e : GoError, isPermErr e = true → NewPermanentError (some e) = some e) ∧
    (∀ o : Option GoError, NewPermanentError (NewPermanentError o) = NewPermanentError o) ∧
    (∀ (msg : String) (e : GoError), isPermErr e = true →
      isPermErr (GoError.wrap msg e) = true) := by
  refine ⟨?_, ?_, ?_⟩
  · intro e he
    simp [NewPermanentError, he]
  · intro o
    match o with
    | none => rfl
    | some e =>
      by_cases he : isPermErr e
      · simp [NewPermanentError, he]
      · simp [NewPermanentError, he, isPermErr]
  · intro msg e he
    simpa [isPermErr] using he

/-- Witness for C6 at the marked failure `permanent (base "x")`. -/
theorem permanent_marking_idempotent_w :
    isPermErr (GoError.permanent (GoError.base "x")) = true ∧
    NewPermanentError (some (GoError.permanent (GoError.base "x"))) =
      some (GoError.permanent (GoError.base "x")) ∧
    isPermErr (GoError.wrap "w" (GoError.permanent (GoError.base "x"))) = true :=
  ⟨by decide, permanent_marking_idempotent.1 _ (by decide),
    permanent_marking_idempotent.2.2 "w" _ (by decide)⟩

/-- C10: `NewPermanentError` applied to nil returns nil, and more generally
its result is nil exactly when its argument is — it never turns a success
into a failure. -/
theorem newPermanentError_nil :
    NewPermanentError none = none ∧
    ∀ o : Option GoError, NewPermanentError o = none ↔ o = none := by
  constructor
  · rfl
  · intro o
    match o with
    | none => simp [NewPermanentError]
    | some e => by_cases he : isPermErr e <;> simp [NewPermanentError, he]

/-! ### Claims about the retry loop `Do` (C2, C9) -/

/-- C2 counterexample: the claim says the failure is returned with all
original wrapping layers intact, but `Do` returns `pe.Err` — the error inside
the first permanent marker of the chain.  With the operation failing with
`wrap "outer" (permanent (base "boom"))`, the loop returns `base "boom"`,
which differs from the operation's failure: the outer layer and the marker
are dropped. -/
theorem doRun_permanent_cex :
    doRun 1 (fun _ _ _ => (0, true))
      (fun _ => some (GoError.wrap "outer" (GoError.permanent (GoError.base "boom"))))
      (fun _ => 0) none none = some ⟨some (GoError.base "boom"), 1, 0, 0⟩ ∧
    GoError.base "boom" ≠
      GoError.wrap "outer" (GoError.permanent (GoError.base "boom")) := by
  decide

/-- C2 amended: when the first failure is, or wraps, the permanent-failure
marker, `Do` returns the error the marker wraps (dropping the marker and the
layers around it), after exactly one invocation of the operation, without
consulting the policy and without waiting. -/
theorem doRun_permanent_short_circuit (p : PolicyFn) (ops : ℕ → Option GoError)
    (clock : ℕ → Time) (deadline cancelAt : Option Time) (fuel : ℕ)
    (e inner : GoError) (h1 : ops 1 = some e) (h2 : findPermanent e = some inner) :
    doRun (fuel + 1) p ops clock deadline cancelAt = some ⟨some inner, 1, 0, 0⟩ := by
  simp [doRun, doRunAux, h1, h2]

/-- Witness for C2 amended at the failure `wrap "ctx" (permanent (base "io"))`. -/
theorem doRun_permanent_short_circuit_w :
    (fun _ => some (GoError.wrap "ctx" (GoError.permanent (GoError.base "io")))) 1 =
      some (GoError.wrap "ctx" (GoError.permanent (GoError.base "io"))) ∧
    findPermanent (GoError.wrap "ctx" (GoError.permanent (GoError.base "io"))) =
      some (GoError.base "io") ∧
    doRun 1 (fun _ _ _ => (0, true))
      (fun _ => some (GoError.wrap "ctx" (GoError.permanent (GoError.base "io"))))
      (fun _ => 0) none none = some ⟨some (GoError.base "io"), 1, 0, 0⟩ :=
  ⟨rfl, rfl,
    doRun_permanent_short_circuit (fun _ _ _ => (0, true)) _ (fun _ => 0) none none 0 _ _
      rfl rfl⟩

/-- C9: at any iteration of the loop, when the context carries a deadline and
the freshly sampled current time plus the policy's proposed backoff exceeds
it (`deadline.Before(time.Now().Add(next))`), the loop returns the
operation's own failure from that iteration, performing no wait and no
further operation or policy calls — it never substitutes a synthetic
deadline error. -/
theorem doRunAux_deadline_overrun (p : PolicyFn) (ops : ℕ → Option GoError)
    (clock : ℕ → Time) (start : Time) (dl : Time) (cancelAt : Option Time)
    (fuel retry k : ℕ) (e : GoError) (next : Duration)
    (h1 : ops retry = some e) (h2 : findPermanent e = none)
    (h3 : p start (clock k) retry = (next, true))
    (h4 : dl < clock (k + 1) + next) :
    doRunAux p ops clock start (some dl) cancelAt (fuel + 1) retry k =
      some ⟨some e, 1, 1, 0⟩ := by
  simp [doRunAux, h1, h2, h3, h4]

/-- Witness for C9: a policy proposing 10ns at deadline 5ns (clock constantly
0) returns the operation's failure `base "e"` without waiting. -/
theorem doRunAux_deadline_overrun_w :
    doRunAux (fun _ _ _ => ((10 : ℤ), true)) (fun _ => some (GoError.base "e"))
      (fun _ => 0) 0 (some 5) none 1 1 1 = some ⟨some (GoError.base "e"), 1, 1, 0⟩ :=
  doRunAux_deadline_overrun _ _ _ _ _ _ 0 1 1 _ _ rfl rfl rfl (by decide)

/-! ### Helper lemmas about truncation toward zero -/

theorem ratTrunc_intCast (n : ℤ) : ratTrunc (n : ℚ) = n := by
  unfold ratTrunc
  split_ifs with h
  · rw [← Int.cast_neg, Int.floor_intCast, neg_neg]
  · exact Int.floor_intCast n

theorem ratTrunc_eq_floor {q : ℚ} (h : 0 ≤ q) : ratTrunc q = ⌊q⌋ := by
  unfold ratTrunc
  rw [if_neg (not_lt.mpr h)]

theorem ratTrunc_mono {a b : ℚ} (h0 : 0 ≤ a) (h : a ≤ b) :
    ratTrunc a ≤ ratTrunc b := by
  rw [ratTrunc_eq_floor h0, ratTrunc_eq_floor (h0.trans h)]
  exact Int.floor_mono h

/-- `exponentialBackoff.Next` in closed form: the truncated product, capped
at `p.max` via `min`, with allow always `true`. -/
theorem exponentialBackoffNext_eq_min (p : ExponentialBackoff) (start now a : ℤ) :
    exponentialBackoffNext p start now a =
      (min (ratTrunc (p.factor ^ (a - 1) * (p.min : ℚ))) p.max, true) := by
  simp only [exponentialBackoffNext]
  split_ifs with h
  · simp [min_eq_right (le_of_lt h)]
  · simp [min_eq_left (not_lt.mp h)]

/-! ### Claims about `exponentialBackoff` (C4) -/

/-- C4 counterexample: the claim asserts that at attempt 1 the backoff equals
`min` exactly, for every `min > 0`, `max > 0`, `factor > 1` — but the cap is
applied even at attempt 1, so with `min = 2`, `max = 1`, `factor = 2` the
returned backoff is 1, not 2. -/
theorem exponentialBackoffNext_min_exact_cex :
    (0 : ℤ) < 2 ∧ (0 : ℤ) < 1 ∧ (1 : ℚ) < 2 ∧
    (exponentialBackoffNext ⟨2, 1, 2⟩ 0 0 1).1 ≠ 2 := by
  refine ⟨by norm_num, by norm_num, by norm_num, ?_⟩
  rw [exponentialBackoffNext_eq_min]
  norm_num [ratTrunc]

/-- C4 amended: for `min > 0`, `max > 0`, `factor > 1` and attempt `a ≥ 1`,
`exponentialBackoff.Next` allows with backoff `min * factor^(a-1)` truncated
to an integer duration and capped at `max`; at `a = 1` the backoff equals
`min` exactly provided `min ≤ max`; the backoff is monotone non-decreasing in
the attempt number and never exceeds `max`. -/
theorem exponentialBackoffNext_formula (mn mx : ℤ) (f : ℚ) (start now a : ℤ)
    (hmn : 0 < mn) (hmx : 0 < mx) (hf : 1 < f) (ha : 1 ≤ a) :
    exponentialBackoffNext ⟨mn, mx, f⟩ start now a =
      (min (ratTrunc (f ^ (a - 1) * (mn : ℚ))) mx, true) ∧
    (a = 1 → mn ≤ mx → (exponentialBackoffNext ⟨mn, mx, f⟩ start now a).1 = mn) ∧
    (exponentialBackoffNext ⟨mn, mx, f⟩ start now a).1 ≤
      (exponentialBackoffNext ⟨mn, mx, f⟩ start now (a + 1)).1 ∧
    (exponentialBackoffNext ⟨mn, mx, f⟩ start now a).1 ≤ mx ∧
    (exponentialBackoffNext ⟨mn, mx, f⟩ start now a).2 = true := by
  have hmnQ : (0 : ℚ) ≤ (mn : ℚ) := by exact_mod_cast hmn.le
  have hfpos : (0 : ℚ) < f := lt_trans one_pos hf
  refine ⟨exponentialBackoffNext_eq_min _ start now a, ?_, ?_, ?_, ?_⟩
  · intro h1 hle
    subst h1
    rw [exponentialBackoffNext_eq_min]
    simp only [sub_self, zpow_zero, one_mul, ratTrunc_intCast]
    exact min_eq_left hle
  · rw [exponentialBackoffNext_eq_min, exponentialBackoffNext_eq_min]
    simp only
    have hz : (0 : ℚ) ≤ f ^ (a - 1) * (mn : ℚ) :=
      mul_nonneg (zpow_pos hfpos (a - 1)).le hmnQ
    have hpow : f ^ (a - 1) ≤ f ^ (a + 1 - 1) :=
      zpow_le_zpow_right₀ hf.le (by omega)
    exact min_le_min (ratTrunc_mono hz (mul_le_mul_of_nonneg_right hpow hmnQ)) le_rfl
  · rw [exponentialBackoffNext_eq_min]
    exact min_le_right _ _
  · rw [exponentialBackoffNext_eq_min]

/-- Witness for C4 amended: `min = 100`, `max = 1000`, `factor = 3/2`,
attempt 1. -/
theorem exponentialBackoffNext_formula_w :
    (0 : ℤ) < 100 ∧ (0 : ℤ) < 1000 ∧ (1 : ℚ) < 3/2 ∧ (1 : ℤ) ≤ 1 ∧
    (exponentialBackoffNext ⟨100, 1000, 3/2⟩ 0 0 1 =
      (min (ratTrunc ((3/2 : ℚ) ^ ((1 : ℤ) - 1) * ((100 : ℤ) : ℚ))) 1000, true) ∧
    ((1 : ℤ) = 1 → (100 : ℤ) ≤ 1000 →
      (exponentialBackoffNext ⟨100, 1000, 3/2⟩ 0 0 1).1 = 100) ∧
    (exponentialBackoffNext ⟨100, 1000, 3/2⟩ 0 0 1).1 ≤
      (exponentialBackoffNext ⟨100, 1000, 3/2⟩ 0 0 (1 + 1)).1 ∧
    (exponentialBackoffNext ⟨100, 1000, 3/2⟩ 0 0 1).1 ≤ 1000 ∧
    (exponentialBackoffNext ⟨100, 1000, 3/2⟩ 0 0 1).2 = true) :=
  ⟨by norm_num, by norm_num, by norm_num, le_refl 1,
    exponentialBackoffNext_formula 100 1000 (3/2) 0 0 1 (by norm_num) (by norm_num)
      (by norm_num) (le_refl 1)⟩

/-! ### Claims about `withRandomJitter` (C5, C7) -/

/-- C5 counterexample: the claim asserts the returned backoff equals
`d * (1 + j*(2r - 1))`, but the Go conversion to `time.Duration` truncates:
with `d = 10`, `j = 1/2`, `r = 1/4` the product is `7.5` while the returned
backoff is `7`. -/
theorem withRandomJitterNext_exact_cex :
    (0 : ℤ) < 10 ∧ (0 : ℚ) < 1/2 ∧ (1/2 : ℚ) ≤ 1 ∧ (0 : ℚ) ≤ 1/4 ∧ (1/4 : ℚ) < 1 ∧
    ((withRandomJitterNext (fun _ _ _ => (10, true)) (1/2) (fun _ => 1/4) 0 0 0 1).1.1 : ℚ) ≠
      (10 : ℚ) * (1 + (1/2) * (2 * (1/4) - 1)) := by
  refine ⟨by norm_num, by norm_num, by norm_num, by norm_num, by norm_num, ?_⟩
  norm_num [withRandomJitterNext, ratTrunc]

/-- C5 amended: for a parent decision `(d, true)` with `d > 0`, jitter factor
`j ∈ (0,1]` and draw `r ∈ [0,1)`, the returned backoff is the truncation of
`d * (1 + j*(2r - 1))` to an integer duration (one draw is consumed), hence
lies strictly between `d*(1-j) - 1` and `d*(1+j)`; a factor outside `(0,1]`
is replaced by the default `0.5` at construction. -/
theorem withRandomJitterNext_jitter_bounds (parent : PolicyFn) (d : ℤ) (j r : ℚ)
    (rand : ℕ → ℚ) (idx : ℕ) (start now a : ℤ)
    (hp : parent start now a = (d, true)) (hrand : rand idx = r)
    (hd : 0 < d) (hj0 : 0 < j) (hj1 : j ≤ 1) (hr0 : 0 ≤ r) (hr1 : r < 1) :
    withRandomJitterNext parent j rand idx start now a =
      ((ratTrunc ((d : ℚ) * (1 + j * (2 * r - 1))), true), idx + 1) ∧
    (d : ℚ) * (1 - j) - 1 < ((ratTrunc ((d : ℚ) * (1 + j * (2 * r - 1)))) : ℚ) ∧
    ((ratTrunc ((d : ℚ) * (1 + j * (2 * r - 1)))) : ℚ) < (d : ℚ) * (1 + j) ∧
    (∀ f : ℚ, (f ≤ 0 ∨ 1 < f) → withRandomJitterFactor f = DefaultJitterFactor) := by
  have hdQ : (0 : ℚ) < (d : ℚ) := by exact_mod_cast hd
  set x : ℚ := (d : ℚ) * (1 + j * (2 * r - 1)) with hx
  have hlow : (d : ℚ) * (1 - j) ≤ x := by
    rw [hx]
    nlinarith [mul_nonneg (mul_nonneg hdQ.le hj0.le) hr0]
  have hxpos : (0 : ℚ) ≤ x :=
    le_trans (by nlinarith [mul_pos hdQ hj0]) hlow
  have hhigh : x < (d : ℚ) * (1 + j) := by
    rw [hx]
    nlinarith [mul_pos hdQ hj0]
  refine ⟨?_, ?_, ?_, ?_⟩
  · simp [withRandomJitterNext, hp, hrand]
  · rw [ratTrunc_eq_floor hxpos]
    calc (d : ℚ) * (1 - j) - 1 ≤ x - 1 := by linarith
    _ < ⌊x⌋ := Int.sub_one_lt_floor x
  · rw [ratTrunc_eq_floor hxpos]
    exact lt_of_le_of_lt (Int.floor_le x) hhigh
  · intro f hf
    simp only [withRandomJitterFactor]
    rw [if_pos hf]

/-- Witness for C5 amended: `d = 10`, `j = 1/2`, `r = 1/4`. -/
theorem withRandomJitterNext_jitter_bounds_w :
    withRandomJitterNext (fun _ _ _ => ((10 : ℤ), true)) (1/2) (fun _ => 1/4) 0 0 0 1 =
      ((ratTrunc (((10 : ℤ) : ℚ) * (1 + (1/2) * (2 * (1/4) - 1))), true), 0 + 1) ∧
    ((10 : ℤ) : ℚ) * (1 - 1/2) - 1 <
      ((ratTrunc (((10 : ℤ) : ℚ) * (1 + (1/2) * (2 * (1/4) - 1)))) : ℚ) ∧
    ((ratTrunc (((10 : ℤ) : ℚ) * (1 + (1/2) * (2 * (1/4) - 1)))) : ℚ) <
      ((10 : ℤ) : ℚ) * (1 + 1/2) ∧
    (∀ f : ℚ, (f ≤ 0 ∨ 1 < f) → withRandomJitterFactor f = DefaultJitterFactor) :=
  withRandomJitterNext_jitter_bounds (fun _ _ _ => (10, true)) 10 (1/2) (1/4)
    (fun _ => 1/4) 0 0 0 1 rfl rfl (by norm_num) (by norm_num) (by norm_num)
    (by norm_num) (by norm_num)

/-- C7 counterexample: the claim says a parent veto is passed through
unchanged, but `withRandomJitter.Next` returns the literal pair `(0, false)`
on a veto: a parent decision `(5, false)` comes back as `(0, false)`, with
the backoff component zeroed. -/
theorem withRandomJitterNext_veto_cex :
    (withRandomJitterNext (fun _ _ _ => (5, false)) (1/2) (fun _ => 0) 0 0 0 1).1 ≠
      ((5 : ℤ), false) := by
  decide

/-- C7 amended: when the parent's decision has allow=false,
`withRandomJitter.Next` returns `(0, false)` — the veto propagates with the
backoff zeroed — and consumes no randomness: the state of the randomness
source (the index of the next unread draw) after the call equals its state
before the call. -/
theorem withRandomJitterNext_veto_passthrough (parent : PolicyFn) (factor : ℚ)
    (rand : ℕ → ℚ) (idx : ℕ) (start now a : ℤ)
    (h : (parent start now a).2 = false) :
    withRandomJitterNext parent factor rand idx start now a = ((0, false), idx) := by
  simp [withRandomJitterNext, h]

/-- Witness for C7 amended: parent decision `(5, false)`, randomness state 3. -/
theorem withRandomJitterNext_veto_passthrough_w :
    ((fun _ _ _ => ((5 : ℤ), false)) (0 : ℤ) (0 : ℤ) (1 : ℤ)).2 = false ∧
    withRandomJitterNext (fun _ _ _ => ((5 : ℤ), false)) (1/2) (fun _ => 0) 3 0 0 1 =
      ((0, false), 3) :=
  ⟨rfl, withRandomJitterNext_veto_passthrough _ _ _ 3 0 0 1 rfl⟩

end Retry
